import Mathlib

/-!
Verification development for the signal-detection and backtest-simulation
engine of this repository.  Python floats are idealised as exact rationals
extended with a NaN element (`PF`): pandas rolling computations over
too-short windows yield NaN, NaN poisons arithmetic and makes every
ordering comparison false, exactly as in the source.  (IEEE rounding error
is not modelled; the spec's balance property is itself stated only "within
floating-point tolerance".)
-/

set_option maxRecDepth 100000

namespace GrT

/-- A Python float value: either NaN or an exact rational. -/
inductive PF where
  | nan : PF
  | val : ℚ → PF
deriving DecidableEq, Repr

namespace PF

/-- Addition; NaN is absorbing, as in IEEE arithmetic. -/
def add : PF → PF → PF
  | val a, val b => val (a + b)
  | _, _ => nan

/-- Subtraction; NaN is absorbing. -/
def sub : PF → PF → PF
  | val a, val b => val (a - b)
  | _, _ => nan

/-- Multiplication; NaN is absorbing. -/
def mul : PF → PF → PF
  | val a, val b => val (a * b)
  | _, _ => nan

/-- Division.  A zero denominator raises ZeroDivisionError in Python; every
division in the embedded code is guarded, so we map it to NaN. -/
def div : PF → PF → PF
  | val a, val b => if b = 0 then nan else val (a / b)
  | _, _ => nan

instance : Add PF := ⟨add⟩
instance : Sub PF := ⟨sub⟩
instance : Mul PF := ⟨mul⟩

/-- Strict `<` as Python evaluates it: any comparison with NaN is false. -/
def lt : PF → PF → Bool
  | val a, val b => decide (a < b)
  | _, _ => false

/-- Non-strict `<=` as Python evaluates it: false when either side is NaN. -/
def le : PF → PF → Bool
  | val a, val b => decide (a ≤ b)
  | _, _ => false

/-- Python `max(a, b)`: returns `b` exactly when `b > a`; with a NaN first
argument the comparison is false and the NaN is kept. -/
def pymax (a b : PF) : PF := if lt a b then b else a

/-- Python `min(a, b)`: returns `b` exactly when `b < a`. -/
def pymin (a b : PF) : PF := if lt b a then b else a

/-- Python truthiness of a float: 0.0 is falsy, every other value — NaN
included — is truthy. -/
def truthy : PF → Bool
  | nan => true
  | val q => decide (q ≠ 0)

/-- `abs`; NaN passes through. -/
def pyabs : PF → PF
  | nan => nan
  | val q => val |q|

/-- Round a rational to the nearest integer, ties to even
(Python's `round`). -/
def halfEven (x : ℚ) : ℤ :=
  if x - ⌊x⌋ < 1/2 then ⌊x⌋
  else if 1/2 < x - ⌊x⌋ then ⌊x⌋ + 1
  else if Even ⌊x⌋ then ⌊x⌋ else ⌊x⌋ + 1

/-- Python `round(x, n)` on rationals, ties to even. -/
def roundQ (n : ℕ) (x : ℚ) : ℚ := (halfEven (x * 10 ^ n) : ℚ) / 10 ^ n

/-- Python `round(x, n)` on floats; NaN rounds to NaN. -/
def round (n : ℕ) : PF → PF
  | nan => nan
  | val q => val (roundQ n q)

end PF

/-- `RiskManager.calculate_position_size`: risk amount over risk per unit,
0 when the stop coincides with the entry, rounded to 2 decimals.  Balance
and risk fraction are the `RiskManager`'s current fields. -/
def calculate_position_size (account_balance max_risk_per_trade : PF)
    (entry_price stop_loss : PF) : PF :=
  let risk_amount := account_balance * max_risk_per_trade
  let risk_per_unit := (entry_price - stop_loss).pyabs
  if risk_per_unit = PF.val 0 then PF.val 0
  else PF.round 2 (PF.div risk_amount risk_per_unit)

/-- One OHLCV bar of the candle series (a row of the dataframe).  The
field `openP` embeds the `open` column (`open` is a Lean keyword). -/
structure Candle where
  timestamp : ℚ
  openP : ℚ
  high : ℚ
  low : ℚ
  close : ℚ
  volume : ℚ
deriving DecidableEq, Repr

/-- Trade direction as the strategies pass it ("BUY"/"SELL"). -/
inductive Dir where
  | buy : Dir
  | sell : Dir
deriving DecidableEq, Repr

/-- Directional tag of a detected pattern ("bullish"/"bearish"). -/
inductive SigType where
  | bullish : SigType
  | bearish : SigType
deriving DecidableEq, Repr

/-- A detector result: `{"price": ..., "type": ...}`. -/
structure Sig where
  price : ℚ
  ty : SigType
deriving DecidableEq, Repr

/-- Mean of a rational column (callers ensure nonempty input). -/
def colMean (xs : List ℚ) : ℚ := xs.sum / xs.length

/-- `series.rolling(k).mean().iloc[-1]`: NaN unless at least `k` values
exist; otherwise the mean of the last `k`. -/
def rollingMeanLast (k : ℕ) (xs : List ℚ) : PF :=
  if k = 0 ∨ xs.length < k then PF.nan
  else PF.val ((xs.reverse.take k).sum / k)

/-- `series.rolling(k).min().iloc[-1]`. -/
def rollingMinLast (k : ℕ) (xs : List ℚ) : PF :=
  match xs.reverse.take k with
  | [] => PF.nan
  | y :: ys => if k = 0 ∨ xs.length < k then PF.nan else PF.val (ys.foldl min y)

/-- `series.rolling(k).max().iloc[-1]`. -/
def rollingMaxLast (k : ℕ) (xs : List ℚ) : PF :=
  match xs.reverse.take k with
  | [] => PF.nan
  | y :: ys => if k = 0 ∨ xs.length < k then PF.nan else PF.val (ys.foldl max y)

/-- Auxiliary for `trList`: true ranges of the remaining candles given the
previous candle's close. -/
def trListAux (prevClose : ℚ) : List Candle → List ℚ
  | [] => []
  | c :: rest =>
      max (c.high - c.low) (max |c.high - prevClose| |c.low - prevClose|) ::
        trListAux c.close rest

/-- The `tr` column of `StopLossTakeProfit._calculate_atr`: the first row's
`high_close`/`low_close` are NaN and the row-wise pandas `max` skips them,
leaving `high - low`. -/
def trList : List Candle → List ℚ
  | [] => []
  | c :: rest => (c.high - c.low) :: trListAux c.close rest

/-- Configuration record of `StopLossTakeProfit` (`config["sl_tp"]`). -/
structure SLTPConfig where
  atr_period : ℕ
  sr_window : ℕ
  atr_multiplier_sl : ℚ
  atr_multiplier_tp : ℚ
  rr_ratio : ℚ
deriving Repr

/-- `StopLossTakeProfit.calculate_sl_tp`.  The `except` fallback
`(entry*0.995, entry*1.01)` is reached exactly when the body raises: on an
empty window (`iloc[-1]` IndexError) or a zero rolling period (pandas
ValueError).  A short-but-nonempty window raises nothing: the rolling
means are NaN and NaN flows through to the outputs. -/
def calculate_sl_tp (cfg : SLTPConfig) (data : List Candle) (entry_price : PF)
    (direction : Dir) : PF × PF :=
  if data.isEmpty ∨ cfg.atr_period = 0 ∨ cfg.sr_window = 0 then
    (entry_price * PF.val 0.995, entry_price * PF.val 1.01)
  else
    let atr := rollingMeanLast cfg.atr_period (trList data)
    let support := rollingMinLast cfg.sr_window (data.map Candle.low)
    let resistance := rollingMaxLast cfg.sr_window (data.map Candle.high)
    match direction with
    | .buy =>
        let sl := entry_price - atr * PF.val cfg.atr_multiplier_sl
        let tp := entry_price +
          atr * PF.val cfg.atr_multiplier_tp * PF.val cfg.rr_ratio
        let sl' := if support.truthy then sl.pymax (support * PF.val 0.995) else sl
        let tp' := if resistance.truthy then tp.pymin (resistance * PF.val 1.005) else tp
        (PF.round 5 sl', PF.round 5 tp')
    | .sell =>
        let sl := entry_price + atr * PF.val cfg.atr_multiplier_sl
        let tp := entry_price -
          atr * PF.val cfg.atr_multiplier_tp * PF.val cfg.rr_ratio
        let sl' := if resistance.truthy then sl.pymin (resistance * PF.val 1.005) else sl
        let tp' := if support.truthy then tp.pymax (support * PF.val 0.995) else tp
        (PF.round 5 sl', PF.round 5 tp')

/-- Max of a pandas series (`none` on an empty series). -/
def seriesMax : List ℚ → Option ℚ
  | [] => none
  | x :: xs => some (xs.foldl max x)

/-- Min of a pandas series (`none` on an empty series). -/
def seriesMin : List ℚ → Option ℚ
  | [] => none
  | x :: xs => some (xs.foldl min x)

/-- `SMCStrategy._detect_order_block` result (it also records the block's
high and low, which the trading code never reads). -/
structure OBlock where
  price : ℚ
  ty : SigType
  high : ℚ
  low : ℚ
deriving DecidableEq, Repr

/-- `SMCStrategy._detect_order_block` (computed on a private copy): last
candle has volume above `mean*k`, range above the mean range, and polarity
opposite to the previous candle. -/
def detect_order_block (ob_volume_multiplier : ℚ) (data : List Candle) :
    Option OBlock :=
  match data.reverse with
  | lastC :: prevC :: _ =>
      let ranges := data.map (fun c => c.high - c.low)
      let lastBullish := decide (lastC.close > lastC.openP)
      let prevBullish := decide (prevC.close > prevC.openP)
      if lastC.volume > colMean (data.map Candle.volume) * ob_volume_multiplier ∧
          lastC.high - lastC.low > colMean ranges ∧ prevBullish ≠ lastBullish then
        some { price := lastC.close,
               ty := if lastBullish then .bullish else .bearish,
               high := lastC.high, low := lastC.low }
      else none
  | _ => none

/-- `SMCStrategy._detect_fair_value_gap`: scan triples oldest to newest,
returning the first gap whose middle candle confirms the direction. -/
def detect_fair_value_gap : List Candle → Option Sig
  | c1 :: c2 :: c3 :: rest =>
      if c1.high < c3.low ∧ c2.close > c2.openP then
        some ⟨(c1.high + c3.low) / 2, .bullish⟩
      else if c1.low > c3.high ∧ c2.close < c2.openP then
        some ⟨(c1.low + c3.high) / 2, .bearish⟩
      else detect_fair_value_gap (c2 :: c3 :: rest)
  | _ => none

/-- `SMCStrategy._detect_liquidity_grab`: `recent_high`/`recent_low` are
taken over `iloc[-10:]`, the last ten candles *including* the current one. -/
def detect_liquidity_grab (data : List Candle) : Option Sig :=
  match data.reverse,
      seriesMax ((data.map Candle.high).reverse.take 10),
      seriesMin ((data.map Candle.low).reverse.take 10) with
  | lastC :: _, some recent_high, some recent_low =>
      if lastC.high > recent_high then some ⟨recent_high, .bearish⟩
      else if lastC.low < recent_low then some ⟨recent_low, .bullish⟩
      else none
  | _, _, _ => none

/-- `SMCStrategy._detect_break_of_structure` (computed on a private copy):
`higher_high` of the last row together with a close above the previous
high, or the mirrored low case. -/
def detect_break_of_structure (data : List Candle) : Option Sig :=
  match data.reverse with
  | lastC :: prevC :: _ =>
      if lastC.high > prevC.high ∧ lastC.close > prevC.high then
        some ⟨lastC.close, .bullish⟩
      else if lastC.low < prevC.low ∧ lastC.close < prevC.low then
        some ⟨lastC.close, .bearish⟩
      else none
  | _ => none

/-- `SMCStrategy._detect_change_of_character` (computed on a private copy):
the close crosses the 20-period rolling mean between the last two rows.
With fewer than 20 (resp. 21) candles the rolling values are NaN and every
comparison is false. -/
def detect_change_of_character (data : List Candle) : Option Sig :=
  match data.reverse with
  | lastC :: prevC :: _ =>
      let closes := data.map Candle.close
      let trendLast := rollingMeanLast 20 closes
      let trendPrev := rollingMeanLast 20 closes.dropLast
      if PF.lt trendLast (PF.val lastC.close) ∧ PF.lt (PF.val prevC.close) trendPrev then
        some ⟨lastC.close, .bullish⟩
      else if PF.lt (PF.val lastC.close) trendLast ∧ PF.lt trendPrev (PF.val prevC.close) then
        some ⟨lastC.close, .bearish⟩
      else none
  | _ => none

/-- `ICTStrategy._detect_market_structure_break` (computed on a private
copy); its body coincides with the SMC break-of-structure detector. -/
def detect_market_structure_break (data : List Candle) : Option Sig :=
  match data.reverse with
  | lastC :: prevC :: _ =>
      if lastC.high > prevC.high ∧ lastC.close > prevC.high then
        some ⟨lastC.close, .bullish⟩
      else if lastC.low < prevC.low ∧ lastC.close < prevC.low then
        some ⟨lastC.close, .bearish⟩
      else none
  | _ => none

/-- `ICTStrategy._detect_judas_swing`: like the liquidity grab, the
`iloc[-10:]` extremes include the current candle. -/
def detect_judas_swing (data : List Candle) : Option Sig :=
  match data.reverse,
      seriesMax ((data.map Candle.high).reverse.take 10),
      seriesMin ((data.map Candle.low).reverse.take 10) with
  | lastC :: _, some recent_high, some recent_low =>
      if lastC.high > recent_high ∧ lastC.close < recent_high then
        some ⟨lastC.close, .bearish⟩
      else if lastC.low < recent_low ∧ lastC.close > recent_low then
        some ⟨lastC.close, .bullish⟩
      else none
  | _, _, _ => none

/-- `ICTStrategy._detect_optimal_trade_entry`: retracement zones of the
20-candle swing (extremes again include the current candle). -/
def detect_optimal_trade_entry (data : List Candle) : Option Sig :=
  match data.reverse,
      seriesMax ((data.map Candle.high).reverse.take 20),
      seriesMin ((data.map Candle.low).reverse.take 20) with
  | lastC :: _, some swing_high, some swing_low =>
      let fib_618 := swing_low + (swing_high - swing_low) * 0.618
      let fib_786 := swing_low + (swing_high - swing_low) * 0.786
      if fib_618 ≤ lastC.close ∧ lastC.close ≤ fib_786 then
        some ⟨lastC.close, .bullish⟩
      else if swing_high - (swing_high - swing_low) * 0.786 ≤ lastC.close ∧
          lastC.close ≤ swing_high - (swing_high - swing_low) * 0.618 then
        some ⟨lastC.close, .bearish⟩
      else none
  | _, _, _ => none

/-- Values of a derived dataframe column (boolean flags or float series). -/
inductive ColVals where
  | bools (bs : List Bool) : ColVals
  | floats (fs : List PF) : ColVals
deriving DecidableEq, Repr

/-- A pandas DataFrame as the detectors see it: the OHLCV rows plus any
derived columns that have been assigned into it. -/
structure DFrame where
  rows : List Candle
  extra : List (String × ColVals)
deriving DecidableEq, Repr

/-- Column assignment `df[name] = vals`: replaces the column if present,
otherwise appends it. -/
def setColAux (name : String) (v : ColVals) :
    List (String × ColVals) → List (String × ColVals)
  | [] => [(name, v)]
  | (m, w) :: rest =>
      if m = name then (name, v) :: rest else (m, w) :: setColAux name v rest

/-- Column assignment on a frame. -/
def setCol (df : DFrame) (name : String) (v : ColVals) : DFrame :=
  { df with extra := setColAux name v df.extra }

/-- The boolean column `high > high.shift(1)` (first entry false: the
shifted value is NaN). -/
def higherHighCol : List Candle → List Bool
  | [] => []
  | c :: rest =>
      false :: (List.zip rest (c :: rest)).map
        (fun p => decide (p.1.high > p.2.high))

/-- The boolean column `low < low.shift(1)`. -/
def lowerLowCol : List Candle → List Bool
  | [] => []
  | c :: rest =>
      false :: (List.zip rest (c :: rest)).map
        (fun p => decide (p.1.low < p.2.low))

/-- The float column `close.rolling(20).mean()`. -/
def trendCol (closes : List ℚ) : List PF :=
  (List.range closes.length).map fun i => rollingMeanLast 20 (closes.take (i + 1))

/-- `EarlyExit._detect_break_of_structure`: unlike the strategy detectors
it takes no copy, so the `higher_high`/`lower_low` assignments land in the
caller's frame.  The returned signal is read off the assigned columns'
last entries, which equal the direct comparisons on the rows. -/
def earlyExit_detect_break_of_structure (df : DFrame) : Option Sig × DFrame :=
  let df' := setCol (setCol df "higher_high" (.bools (higherHighCol df.rows)))
      "lower_low" (.bools (lowerLowCol df.rows))
  (detect_break_of_structure df.rows, df')

/-- `EarlyExit._detect_change_of_character`: assigns the `trend` column
into the caller's frame (no copy) and compares the last two closes with
the last two rolling means. -/
def earlyExit_detect_change_of_character (df : DFrame) : Option Sig × DFrame :=
  let df' := setCol df "trend" (.floats (trendCol (df.rows.map Candle.close)))
  (detect_change_of_character df.rows, df')

/-- Gains column `delta.where(delta > 0, 0)` over the remaining closes,
given the previous close. -/
def gainsAux (prev : ℚ) : List ℚ → List ℚ
  | [] => []
  | c :: rest => (if c - prev > 0 then c - prev else 0) :: gainsAux c rest

/-- Losses column `-delta.where(delta < 0, 0)`. -/
def lossesAux (prev : ℚ) : List ℚ → List ℚ
  | [] => []
  | c :: rest => (if c - prev < 0 then prev - c else 0) :: lossesAux c rest

/-- `EarlyExit._calculate_rsi`: rolling means of gains and losses over the
period, the zero average loss replaced by `1e-10`, then
`100 - 100/(1 + rs)`.  The first delta is NaN, which `where` turns into 0.
(The divisions cannot hit a zero denominator: the loss is floored and
`rs ≥ 0`.) -/
def calculate_rsi (rsi_period : ℕ) (closes : List ℚ) : PF :=
  let gains := match closes with
    | [] => []
    | c :: rest => 0 :: gainsAux c rest
  let losses := match closes with
    | [] => []
    | c :: rest => 0 :: lossesAux c rest
  let avg_gain := rollingMeanLast rsi_period gains
  let avg_loss :=
    match rollingMeanLast rsi_period losses with
    | PF.val q => if q = 0 then PF.val (1 / 10 ^ 10) else PF.val q
    | PF.nan => PF.nan
  let rs := PF.div avg_gain avg_loss
  PF.val 100 - PF.div (PF.val 100) (PF.val 1 + rs)

/-- Configuration record of `EarlyExit` (`config["early_exit"]`);
`min_profit_percent` carries the `.get(..., 0.1)` default already
resolved. -/
structure EEConfig where
  min_profit_percent : ℚ
  rsi_period : ℕ
  rsi_overbought : ℚ
  rsi_oversold : ℚ
deriving Repr

/-- Does the signal point opposite to the position's direction? -/
def oppositeSignal (direction : Dir) : Option Sig → Bool
  | some s =>
      (decide (direction = Dir.buy) && decide (s.ty = SigType.bearish)) ||
        (decide (direction = Dir.sell) && decide (s.ty = SigType.bullish))
  | none => false

/-- `EarlyExit._should_exit`: opposite break of structure, else opposite
change of character, else an RSI extreme on the position's side.  The
frame is threaded because the two detectors assign columns into it; the
RSI result is never `None` here, and a NaN RSI fails both comparisons. -/
def should_exit (cfg : EEConfig) (df : DFrame) (direction : Dir) : Bool :=
  let bosR := earlyExit_detect_break_of_structure df
  if oppositeSignal direction bosR.1 then true
  else
    let chochR := earlyExit_detect_change_of_character bosR.2
    if oppositeSignal direction chochR.1 then true
    else
      let rsi := calculate_rsi cfg.rsi_period (chochR.2.rows.map Candle.close)
      if decide (direction = Dir.buy) && PF.lt (PF.val cfg.rsi_overbought) rsi then true
      else if decide (direction = Dir.sell) && PF.lt rsi (PF.val cfg.rsi_oversold) then true
      else false

/-- Unrealized percentage profit of a position at the latest close
(`EarlyExit.check_positions`). -/
def unrealized_profit_percent (direction : Dir) (entry last_close : PF) : PF :=
  match direction with
  | .buy => PF.div (last_close - entry) entry * PF.val 100
  | .sell => PF.div (entry - last_close) entry * PF.val 100

/-- The backtest section of the configuration (`config["backtest"]`).
`slippage_volatility` parameterises `np.random.normal(0, vol)`; the draws
themselves enter the engine as an injected stream (see `EngState.slip`). -/
structure BTConfig where
  spread : ℚ
  commission : ℚ
  slippage_volatility : ℚ
deriving Repr

/-- `config["strategies"]["smc"]`. -/
structure SMCConfig where
  ob_volume_multiplier : ℚ
deriving Repr

/-- All configuration the backtest engine and its collaborators read. -/
structure Cfg where
  bt : BTConfig
  sltp : SLTPConfig
  max_risk_per_trade : ℚ
  smc : SMCConfig
  ee : EEConfig
deriving Repr

/-- An open position as `Backtester.place_order` records it. -/
structure Position where
  symbol : String
  direction : Dir
  size : PF
  entry_price : PF
  stop_loss : PF
  take_profit : PF
  open_time : ℚ
  deal_id : String
deriving DecidableEq, Repr

/-- A closed-position record appended to `Backtester.trades`. -/
structure Trade where
  symbol : String
  direction : Dir
  entry_price : PF
  exit_price : PF
  size : PF
  profit : PF
  open_time : ℚ
  close_time : ℚ
deriving DecidableEq, Repr

/-- The mutable state of a backtest run: the risk manager's balance, the
engine's position/trade/equity lists, and the two ambient sequences the
source draws from (`np.random.normal` slippage values, `datetime.now()`
readings), injected as streams to make them explicit. -/
structure EngState where
  account_balance : PF
  open_positions : List Position
  trades : List Trade
  equity : List PF
  slip : List ℚ
  clock : List ℚ
deriving DecidableEq, Repr

/-- `Backtester.place_order`: half-spread and a slippage draw adjust the
entry, the position is appended with a wall-clock open time and a
`BACKTEST_n` deal id. -/
def backtester_place_order (cfg : BTConfig) (symbol : String) (direction : Dir)
    (size : PF) (price : PF) (stop_loss take_profit : PF) (s : EngState) :
    EngState :=
  let entry1 := match direction with
    | .buy => price + PF.val (cfg.spread / 2)
    | .sell => price - PF.val (cfg.spread / 2)
  let slippage := s.slip.headD 0
  let s := { s with slip := s.slip.tail }
  let entry2 := match direction with
    | .buy => entry1 + PF.val slippage
    | .sell => entry1 - PF.val slippage
  let now := s.clock.headD 0
  let s := { s with clock := s.clock.tail }
  let pos : Position :=
    { symbol := symbol, direction := direction, size := size,
      entry_price := entry2, stop_loss := stop_loss,
      take_profit := take_profit, open_time := now,
      deal_id := "BACKTEST_" ++ toString s.open_positions.length }
  { s with open_positions := s.open_positions ++ [pos] }

/-- Direction of a trade from a signal's tag. -/
def dirOfTy : SigType → Dir
  | .bullish => .buy
  | .bearish => .sell

/-- Common body of the five `SMCStrategy._trade_*` methods: SL/TP, then
size from the risk manager's current balance, then skip when the size is
exactly 0, else place the order. -/
def smcTradeSignal (cfg : Cfg) (symbol : String) (price : ℚ) (ty : SigType)
    (data : List Candle) (s : EngState) : EngState :=
  let direction := dirOfTy ty
  let sltp := calculate_sl_tp cfg.sltp data (PF.val price) direction
  let size := calculate_position_size s.account_balance
    (PF.val cfg.max_risk_per_trade) (PF.val price) sltp.1
  if size = PF.val 0 then s
  else backtester_place_order cfg.bt symbol direction size (PF.val price)
    sltp.1 sltp.2 s

/-- `SMCStrategy._trade_order_block`. -/
def smc_trade_order_block (cfg : Cfg) (symbol : String) (ob : OBlock)
    (data : List Candle) (s : EngState) : EngState :=
  smcTradeSignal cfg symbol ob.price ob.ty data s

/-- `SMCStrategy._trade_fair_value_gap`. -/
def smc_trade_fair_value_gap (cfg : Cfg) (symbol : String) (fvg : Sig)
    (data : List Candle) (s : EngState) : EngState :=
  smcTradeSignal cfg symbol fvg.price fvg.ty data s

/-- `SMCStrategy._trade_liquidity_grab`. -/
def smc_trade_liquidity_grab (cfg : Cfg) (symbol : String) (liquidity : Sig)
    (data : List Candle) (s : EngState) : EngState :=
  smcTradeSignal cfg symbol liquidity.price liquidity.ty data s

/-- `SMCStrategy._trade_break_of_structure`. -/
def smc_trade_break_of_structure (cfg : Cfg) (symbol : String) (bos : Sig)
    (data : List Candle) (s : EngState) : EngState :=
  smcTradeSignal cfg symbol bos.price bos.ty data s

/-- `SMCStrategy._trade_change_of_character`. -/
def smc_trade_change_of_character (cfg : Cfg) (symbol : String) (choch : Sig)
    (data : List Candle) (s : EngState) : EngState :=
  smcTradeSignal cfg symbol choch.price choch.ty data s

/-- Common body of the three `ICTStrategy._trade_*` methods: identical to
the SMC version except that the computed size is never checked — the
order is placed whatever `calculate_position_size` returned. -/
def ictTradeSignal (cfg : Cfg) (symbol : String) (price : ℚ) (ty : SigType)
    (data : List Candle) (s : EngState) : EngState :=
  let direction := dirOfTy ty
  let sltp := calculate_sl_tp cfg.sltp data (PF.val price) direction
  let size := calculate_position_size s.account_balance
    (PF.val cfg.max_risk_per_trade) (PF.val price) sltp.1
  backtester_place_order cfg.bt symbol direction size (PF.val price)
    sltp.1 sltp.2 s

/-- `ICTStrategy._trade_market_structure`. -/
def ict_trade_market_structure (cfg : Cfg) (symbol : String) (ms : Sig)
    (data : List Candle) (s : EngState) : EngState :=
  ictTradeSignal cfg symbol ms.price ms.ty data s

/-- `ICTStrategy._trade_judas_swing`. -/
def ict_trade_judas_swing (cfg : Cfg) (symbol : String) (judas : Sig)
    (data : List Candle) (s : EngState) : EngState :=
  ictTradeSignal cfg symbol judas.price judas.ty data s

/-- `ICTStrategy._trade_optimal_trade_entry`. -/
def ict_trade_optimal_trade_entry (cfg : Cfg) (symbol : String) (ote : Sig)
    (data : List Candle) (s : EngState) : EngState :=
  ictTradeSignal cfg symbol ote.price ote.ty data s

/-- `SMCStrategy.execute` in backtest mode: the patched data feed hands
back the current window; all five detectors run on it (each on a private
copy), then each hit is traded in the fixed order OB, FVG, liquidity
grab, BOS, CHoCH. -/
def smc_execute (cfg : Cfg) (symbol : String) (data : List Candle)
    (s : EngState) : EngState :=
  if data.isEmpty then s
  else
    let ob := detect_order_block cfg.smc.ob_volume_multiplier data
    let fvg := detect_fair_value_gap data
    let liquidity := detect_liquidity_grab data
    let bos := detect_break_of_structure data
    let choch := detect_change_of_character data
    let s := match ob with
      | some o => smc_trade_order_block cfg symbol o data s
      | none => s
    let s := match fvg with
      | some f => smc_trade_fair_value_gap cfg symbol f data s
      | none => s
    let s := match liquidity with
      | some l => smc_trade_liquidity_grab cfg symbol l data s
      | none => s
    let s := match bos with
      | some b => smc_trade_break_of_structure cfg symbol b data s
      | none => s
    match choch with
    | some c2 => smc_trade_change_of_character cfg symbol c2 data s
    | none => s

/-- `ICTStrategy._get_daily_bias` in backtest mode: the patched feed
returns the current window for the "DAY" request too, so the bias is the
window's last candle polarity; `none` models the "neutral" answer on an
empty frame, which matches no signal type. -/
def get_daily_bias (data : List Candle) : Option SigType :=
  match data.reverse with
  | lastC :: _ => some (if lastC.close > lastC.openP then .bullish else .bearish)
  | [] => none

/-- `ICTStrategy.execute` in backtest mode: gated by the wall-clock kill
zone, then each detector's hit is traded only when the daily bias agrees
with its direction. -/
def ict_execute (cfg : Cfg) (symbol : String) (kill_zone : Bool)
    (data : List Candle) (s : EngState) : EngState :=
  if !kill_zone then s
  else if data.isEmpty then s
  else
    let daily_bias := get_daily_bias data
    let ms := detect_market_structure_break data
    let judas := detect_judas_swing data
    let ote := detect_optimal_trade_entry data
    let s := match ms with
      | some m => if daily_bias = some m.ty then
          ict_trade_market_structure cfg symbol m data s else s
      | none => s
    let s := match judas with
      | some j => if daily_bias = some j.ty then
          ict_trade_judas_swing cfg symbol j data s else s
      | none => s
    match ote with
    | some o => if daily_bias = some o.ty then
        ict_trade_optimal_trade_entry cfg symbol o data s else s
    | none => s

/-- SL/TP test of `Backtester._process_positions` for one position: the
stop is checked before the target in each branch; a NaN level fails both
comparisons and the position stays open.  Returns the gross profit,
computed from the *level* that was hit, when the position closes. -/
def slTpHit (pos : Position) (current_price : PF) : Option PF :=
  match pos.direction with
  | .buy =>
      if PF.le current_price pos.stop_loss then
        some ((pos.stop_loss - pos.entry_price) * pos.size)
      else if PF.le pos.take_profit current_price then
        some ((pos.take_profit - pos.entry_price) * pos.size)
      else none
  | .sell =>
      if PF.le pos.stop_loss current_price then
        some ((pos.entry_price - pos.stop_loss) * pos.size)
      else if PF.le current_price pos.take_profit then
        some ((pos.entry_price - pos.take_profit) * pos.size)
      else none

/-- Loop body of `Backtester._process_positions`: iterate over a snapshot
of the open positions; each hit nets the commission into the profit,
appends a `Trade` whose `exit_price` is the *current close* (not the
level the profit was computed from), adds the profit to the balance and
removes the position. -/
def processAux (cfg : BTConfig) (current_price : PF) (current_time : ℚ) :
    List Position → PF → List Trade → List Position →
      PF × List Trade × List Position
  | [], bal, tr, keep => (bal, tr, keep)
  | pos :: rest, bal, tr, keep =>
      match slTpHit pos current_price with
      | some p =>
          let commission := pos.size * PF.val cfg.commission
          let profit := p - commission
          let t : Trade :=
            { symbol := pos.symbol, direction := pos.direction,
              entry_price := pos.entry_price, exit_price := current_price,
              size := pos.size, profit := profit,
              open_time := pos.open_time, close_time := current_time }
          processAux cfg current_price current_time rest (bal + profit)
            (tr ++ [t]) keep
      | none => processAux cfg current_price current_time rest bal tr
          (keep ++ [pos])

/-- `Backtester._process_positions`. -/
def process_positions (cfg : BTConfig) (current_price : PF)
    (current_time : ℚ) (s : EngState) : EngState :=
  let r := processAux cfg current_price current_time s.open_positions
    s.account_balance s.trades []
  { s with account_balance := r.1, trades := r.2.1, open_positions := r.2.2 }

/-- Loop body of `Backtester._close_all_positions`: every remaining
position is closed at the final close price, commission netted, the
trade's `close_time` read from the wall clock. -/
def closeAllAux (cfg : BTConfig) (current_price : PF) :
    List Position → PF → List Trade → List ℚ → PF × List Trade × List ℚ
  | [], bal, tr, clock => (bal, tr, clock)
  | pos :: rest, bal, tr, clock =>
      let p := match pos.direction with
        | .buy => (current_price - pos.entry_price) * pos.size
        | .sell => (pos.entry_price - current_price) * pos.size
      let profit := p - pos.size * PF.val cfg.commission
      let t : Trade :=
        { symbol := pos.symbol, direction := pos.direction,
          entry_price := pos.entry_price, exit_price := current_price,
          size := pos.size, profit := profit,
          open_time := pos.open_time, close_time := clock.headD 0 }
      closeAllAux cfg current_price rest (bal + profit) (tr ++ [t]) clock.tail

/-- `Backtester._close_all_positions`. -/
def close_all_positions (cfg : BTConfig) (current_price : PF)
    (s : EngState) : EngState :=
  let r := closeAllAux cfg current_price s.open_positions s.account_balance
    s.trades s.clock
  { s with
    account_balance := r.1
    trades := r.2.1
    clock := r.2.2
    open_positions := ([] : List Position) }

/-- `OrderManager.get_open_positions` in backtest mode: the backtest
branch returns the empty list (the engine's own `open_positions` are
never exposed through this call). -/
def ordermanager_get_open_positions_backtest : List Position := []

/-- `EarlyExit.check_positions` as the backtest loop invokes it: the
position query returns `[]`, so the method returns before fetching data;
even on the (unreachable) nonempty path, `OrderManager.close_position` is
a log-only no-op in backtest mode, so the engine state is unchanged. -/
def early_exit_check_positions (s : EngState) : EngState :=
  if ordermanager_get_open_positions_backtest.isEmpty then s else s

/-- Placeholder row for out-of-range dataframe access (never reached for
the indices the loop produces). -/
def dfltCandle : Candle := ⟨0, 0, 0, 0, 0, 0⟩

/-- One iteration of the `Backtester.run` main loop at index `i`: the
strategies see the prefix window `data[0..i]` through the patched feed,
positions are tested against `close[i]`, the early-exit check runs (as a
no-op, see above), and the post-step balance is appended to the equity
curve.  `kill_zones` injects the wall-clock kill-zone answer per step. -/
def btStep (cfg : Cfg) (symbol : String) (data : List Candle)
    (kill_zones : List Bool) (i : ℕ) (s : EngState) : EngState :=
  let window := data.take (i + 1)
  let current := data.getD i dfltCandle
  let current_price := PF.val current.close
  let current_time := current.timestamp
  let s := smc_execute cfg symbol window s
  let s := ict_execute cfg symbol (kill_zones.getD i false) window s
  let s := process_positions cfg.bt current_price current_time s
  let s := early_exit_check_positions s
  { s with equity := s.equity ++ [s.account_balance] }

/-- `Backtester.run`: seed the balance and equity curve, loop `i` over
`1..len-1`, then force-close everything at the final close price.  `slip`
and `clock` inject the ambient random/clock draws; `kill_zones` the
per-step kill-zone state. -/
def backtester_run (cfg : Cfg) (symbol : String) (data : List Candle)
    (initial_balance : ℚ) (slip clock : List ℚ) (kill_zones : List Bool) :
    EngState :=
  let s0 : EngState :=
    { account_balance := PF.val initial_balance, open_positions := [],
      trades := [], equity := [PF.val initial_balance],
      slip := slip, clock := clock }
  if data.isEmpty then s0
  else
    let s := (List.range' 1 (data.length - 1)).foldl
      (fun s i => btStep cfg symbol data kill_zones i s) s0
    close_all_positions cfg.bt (PF.val (data.getLastD dfltCandle).close) s

/-- Concrete configuration used by the concrete-run theorems below. -/
def exCfg : Cfg :=
  { bt := { spread := 0, commission := 1/1000, slippage_volatility := 1/10000 }
    sltp := { atr_period := 2, sr_window := 2, atr_multiplier_sl := 1,
              atr_multiplier_tp := 1, rr_ratio := 1 }
    max_risk_per_trade := 1/100
    smc := { ob_volume_multiplier := 2 }
    ee := { min_profit_percent := 1/10, rsi_period := 2,
            rsi_overbought := 60, rsi_oversold := 40 } }

/-- A three-candle series: the second candle breaks structure upward
(opening a BUY), the third is an inside candle that lifts the close. -/
def exData : List Candle :=
  [⟨0, 100.2, 100.5, 100, 100.4, 1⟩,
   ⟨1, 100.4, 102, 100, 100.9, 1⟩,
   ⟨2, 100.9, 101.5, 100.5, 101.4, 1⟩]

/-- The concrete backtest run over `exData` with zeroed slippage and
clock streams and the ICT kill zone closed throughout. -/
def exRun : EngState :=
  backtester_run exCfg "EURUSD" exData 10000 [0, 0, 0, 0] [0, 0, 0, 0]
    [false, false, false]

/-- The configuration of the C6 scenario: the usual 14-candle rolling
periods. -/
def c6Cfg : SLTPConfig :=
  { atr_period := 14, sr_window := 14, atr_multiplier_sl := 1,
    atr_multiplier_tp := 1, rr_ratio := 1 }

/-- A two-candle window: far too short for 14-period rolling means. -/
def c6Data : List Candle :=
  [⟨0, 100, 100, 100, 100, 1⟩, ⟨1, 100, 100, 100, 100, 1⟩]

/-- Check of one `(c1, c2, c3)` triple, as the spec words it: a bullish
gap when `c1.high < c3.low` with a bullish middle candle, a bearish gap
when `c1.low > c3.high` with a bearish middle candle; the price is the
gap's midpoint. -/
def fvgTriple (c1 c2 c3 : Candle) : Option Sig :=
  if c1.high < c3.low ∧ c2.close > c2.openP then
    some ⟨(c1.high + c3.low) / 2, .bullish⟩
  else if c1.low > c3.high ∧ c2.close < c2.openP then
    some ⟨(c1.low + c3.high) / 2, .bearish⟩
  else none

/-- The FVG scan as the Python source writes it: `for i in
range(len(data) - 2)` over `iloc[i], iloc[i+1], iloc[i+2]`, first match
wins. -/
def detect_fair_value_gap_indexed (data : List Candle) : Option Sig :=
  (List.range (data.length - 2)).findSome? fun i =>
    fvgTriple (data.getD i dfltCandle) (data.getD (i + 1) dfltCandle)
      (data.getD (i + 2) dfltCandle)

/-- The spec's synthetic FVG scenario: a single bullish triple with
`c1.high = 100`, `c3.low = 105` and a bullish middle candle, inside an
otherwise flat series. -/
def c9Series : List Candle :=
  [⟨0, 100, 100, 100, 100, 1⟩,
   ⟨1, 100, 100, 100, 100, 1⟩,
   ⟨2, 100, 100, 100, 100, 1⟩,
   ⟨3, 100, 106, 100, 105.5, 1⟩,
   ⟨4, 105.5, 107, 105, 106, 1⟩,
   ⟨5, 106, 106, 106, 106, 1⟩]

/-- Sum of the recorded profits of a trade list. -/
def sumProfits (ts : List Trade) : PF :=
  (ts.map Trade.profit).foldl (· + ·) (PF.val 0)

/-- The conservation invariant: the balance is the initial balance plus
the profits of all trades recorded so far. -/
def InvBal (b0 : ℚ) (s : EngState) : Prop :=
  s.account_balance = PF.val b0 + sumProfits s.trades

/-- A long position for the C4 scenario: entry 100, SL 95, TP 110,
size 1. -/
def c4Pos : Position :=
  ⟨"EURUSD", Dir.buy, PF.val 1, PF.val 100, PF.val 95, PF.val 110, 0,
    "BACKTEST_0"⟩

/-- Engine state holding just `c4Pos`. -/
def c4State : EngState :=
  ⟨PF.val 10000, [c4Pos], [], [PF.val 10000], [], []⟩

/-- Backtest config with 1% commission for the C4 scenario. -/
def c4Cfg : BTConfig := ⟨0, 1/100, 0⟩

/-- Config for the C2 scenario: `atr_multiplier_sl = 0` makes the
computed stop coincide with the entry, so the computed size is 0. -/
def c2Cfg : Cfg :=
  { bt := { spread := 0, commission := 1/1000, slippage_volatility := 0 }
    sltp := { atr_period := 2, sr_window := 2, atr_multiplier_sl := 0,
              atr_multiplier_tp := 1, rr_ratio := 1 }
    max_risk_per_trade := 1/100
    smc := { ob_volume_multiplier := 2 }
    ee := { min_profit_percent := 1/10, rsi_period := 2,
            rsi_overbought := 60, rsi_oversold := 40 } }

/-- A two-candle window with a bullish market-structure break (and a
bullish daily bias). -/
def c2Data : List Candle :=
  [⟨0, 100, 100.5, 99.5, 100.2, 1⟩, ⟨1, 100.2, 101, 100, 100.8, 1⟩]

/-- An engine state with no open positions. -/
def c2Empty : EngState :=
  ⟨PF.val 10000, [], [], [PF.val 10000], [0, 0], [0, 0]⟩

/-- The start state of the concrete run (zeroed streams). -/
def exS0 : EngState :=
  ⟨PF.val 10000, [], [], [PF.val 10000], [0, 0, 0, 0], [0, 0, 0, 0]⟩

/-- The concrete run's state after loop step `i = 1` (a BUY position has
been opened by the bullish break of structure). -/
def exStep1 : EngState :=
  btStep exCfg "EURUSD" exData [false, false, false] 1 exS0

/-- The concrete run's state after loop step `i = 2`. -/
def exStep2 : EngState :=
  btStep exCfg "EURUSD" exData [false, false, false] 2 exStep1

/-- The position the concrete run opens at step 1: a BUY of size 80 at
entry 100.9 with SL 99.65 and TP 102.15. -/
def exPos : Position :=
  ⟨"EURUSD", Dir.buy, PF.val 80, PF.val (1009/10), PF.val (1993/20),
    PF.val (2043/20), 0, "BACKTEST_0"⟩

/-- A trade with its wall-clock-derived fields (`open_time`,
`close_time`) erased. -/
structure TradeData where
  symbol : String
  direction : Dir
  entry_price : PF
  exit_price : PF
  size : PF
  profit : PF
deriving DecidableEq, Repr

/-- Erase a trade's time fields. -/
def Trade.core (t : Trade) : TradeData :=
  ⟨t.symbol, t.direction, t.entry_price, t.exit_price, t.size, t.profit⟩

/-- A position with its wall-clock `open_time` erased. -/
structure PosData where
  symbol : String
  direction : Dir
  size : PF
  entry_price : PF
  stop_loss : PF
  take_profit : PF
  deal_id : String
deriving DecidableEq, Repr

/-- Erase a position's open time. -/
def Position.core (p : Position) : PosData :=
  ⟨p.symbol, p.direction, p.size, p.entry_price, p.stop_loss, p.take_profit,
    p.deal_id⟩

/-- Two engine states that agree on everything except the clock stream
and the wall-clock time fields stored inside positions and trades. -/
def ClockAgnostic (s1 s2 : EngState) : Prop :=
  s1.account_balance = s2.account_balance ∧
  s1.open_positions.map Position.core = s2.open_positions.map Position.core ∧
  s1.trades.map Trade.core = s2.trades.map Trade.core ∧
  s1.equity = s2.equity ∧
  s1.slip = s2.slip

/-- The concrete run again, with a different (all-ones) clock stream. -/
def exRunClock1 : EngState :=
  backtester_run exCfg "EURUSD" exData 10000 [0, 0, 0, 0] [1, 1, 1, 1]
    [false, false, false]

/-- `SMCStrategy._detect_order_block` at the frame level: the first line
is `data = data.copy()`, so the derived `range`/`is_bullish` columns land
in a private copy and the caller's frame comes back untouched. -/
def smc_detect_order_block_frame (k : ℚ) (df : DFrame) :
    Option OBlock × DFrame :=
  (detect_order_block k df.rows, df)

/-- `SMCStrategy._detect_break_of_structure` at the frame level (copies). -/
def smc_detect_break_of_structure_frame (df : DFrame) :
    Option Sig × DFrame :=
  (detect_break_of_structure df.rows, df)

/-- `SMCStrategy._detect_change_of_character` at the frame level
(copies). -/
def smc_detect_change_of_character_frame (df : DFrame) :
    Option Sig × DFrame :=
  (detect_change_of_character df.rows, df)

/-- `ICTStrategy._detect_market_structure_break` at the frame level
(copies). -/
def ict_detect_market_structure_break_frame (df : DFrame) :
    Option Sig × DFrame :=
  (detect_market_structure_break df.rows, df)

/-- `StopLossTakeProfit._calculate_atr` at the frame level (copies before
assigning the `high_low`/`high_close`/`low_close`/`tr` columns). -/
def calculate_atr_frame (atr_period : ℕ) (df : DFrame) : PF × DFrame :=
  (rollingMeanLast atr_period (trList df.rows), df)

/-! ### Helper lemmas -/

@[simp] theorem PF.nan_add (b : PF) : PF.nan + b = PF.nan := rfl

@[simp] theorem PF.add_nan (a : PF) : a + PF.nan = PF.nan := by cases a <;> rfl

@[simp] theorem PF.val_add_val (a b : ℚ) :
    PF.val a + PF.val b = PF.val (a + b) := rfl

theorem PF.addAssoc (a b c : PF) : a + b + c = a + (b + c) := by
  cases a <;> cases b <;> cases c <;> simp [add_assoc]

theorem le_foldl_max (l : List ℚ) (b : ℚ) : b ≤ l.foldl max b := by
  induction l generalizing b with
  | nil => exact le_rfl
  | cons x xs ih => exact le_trans (le_max_left b x) (ih (max b x))

theorem foldl_min_le (l : List ℚ) (b : ℚ) : l.foldl min b ≤ b := by
  induction l generalizing b with
  | nil => exact le_rfl
  | cons x xs ih => exact le_trans (ih (min b x)) (min_le_left b x)

theorem roundQ_nonneg (n : ℕ) (x : ℚ) (hx : 0 ≤ x) : 0 ≤ PF.roundQ n x := by
  have h10 : (0:ℚ) < 10 ^ n := by positivity
  have hy : (0:ℚ) ≤ x * 10 ^ n := by positivity
  have hf : (0:ℤ) ≤ ⌊x * 10 ^ n⌋ := Int.floor_nonneg.mpr hy
  unfold PF.roundQ PF.halfEven
  apply div_nonneg _ (le_of_lt h10)
  split_ifs with h1 h2 h3
  · exact_mod_cast hf
  · exact_mod_cast (by omega : (0:ℤ) ≤ ⌊x * 10 ^ n⌋ + 1)
  · exact_mod_cast hf
  · exact_mod_cast (by omega : (0:ℤ) ≤ ⌊x * 10 ^ n⌋ + 1)

theorem trListAux_length (p : ℚ) (l : List Candle) :
    (trListAux p l).length = l.length := by
  induction l generalizing p with
  | nil => rfl
  | cons c rest ih => simp [trListAux, ih]

theorem trList_length (l : List Candle) : (trList l).length = l.length := by
  cases l with
  | nil => rfl
  | cons c rest => simp [trList, trListAux_length]

/-! ### C8 : position sizing -/

/-- C8.  `calculate_position_size` returns
`round2 (balance * risk_fraction / |entry - stop|)` whenever the entry and
stop differ, returns 0 when they coincide, and the result is non-negative
(for positive balance and risk fraction). -/
theorem claim_C8 (balance rf entry stop : ℚ) (hb : 0 < balance) (hr : 0 < rf) :
    (entry ≠ stop →
      calculate_position_size (PF.val balance) (PF.val rf) (PF.val entry)
          (PF.val stop) =
        PF.val (PF.roundQ 2 (balance * rf / |entry - stop|)) ∧
      PF.le (PF.val 0)
        (calculate_position_size (PF.val balance) (PF.val rf) (PF.val entry)
          (PF.val stop)) = true) ∧
    (entry = stop →
      calculate_position_size (PF.val balance) (PF.val rf) (PF.val entry)
          (PF.val stop) = PF.val 0) := by
  unfold calculate_position_size
  have hsub : PF.val entry - PF.val stop = PF.val (entry - stop) := rfl
  have habs : (PF.val entry - PF.val stop).pyabs = PF.val |entry - stop| := rfl
  constructor
  · intro hne
    have hne0 : |entry - stop| ≠ 0 := by
      simp [abs_eq_zero, sub_eq_zero, hne]
    have hcase : ¬ (PF.val entry - PF.val stop).pyabs = PF.val 0 := by
      rw [habs]
      simp [PF.val.injEq, hne0]
    rw [if_neg hcase, habs]
    have hmul : PF.val balance * PF.val rf = PF.val (balance * rf) := rfl
    rw [hmul]
    have hdiv : PF.div (PF.val (balance * rf)) (PF.val |entry - stop|) =
        PF.val (balance * rf / |entry - stop|) := by
      simp [PF.div, hne0]
    rw [hdiv]
    refine ⟨rfl, ?_⟩
    have hnn : 0 ≤ balance * rf / |entry - stop| := by positivity
    simp [PF.round, PF.le, roundQ_nonneg 2 _ hnn]
  · intro heq
    subst heq
    simp [habs]

/-- C8 witness: the spec's own scenario — entry 100, stop 95, balance
10000, risk 1% gives size 20.00, and a degenerate stop gives 0. -/
theorem claim_C8_witness :
    calculate_position_size (PF.val 10000) (PF.val (1/100)) (PF.val 100)
        (PF.val 95) = PF.val 20 ∧
    calculate_position_size (PF.val 10000) (PF.val (1/100)) (PF.val 100)
        (PF.val 100) = PF.val 0 := by
  have h := claim_C8 10000 (1/100) 100 95 (by norm_num) (by norm_num)
  have h2 := (h.1 (by norm_num)).1
  refine ⟨?_, ?_⟩
  · rw [h2]
    with_unfolding_all decide
  · exact (claim_C8 10000 (1/100) 100 100 (by norm_num) (by norm_num)).2 rfl

/-! ### C5 : liquidity grab -/

/-- C5.  The liquidity-grab detector can never return a signal on any
nonempty window: `recent_high`/`recent_low` are taken over `iloc[-10:]`,
which contains the last candle itself, so `last.high > recent_high` and
`last.low < recent_low` are both always false.  (The spec's "max high of
the 10 candles *preceding* it" would require `iloc[-11:-1]`.) -/
theorem claim_C5_theorem (c : Candle) (cs : List Candle) :
    detect_liquidity_grab (c :: cs) = none := by
  obtain ⟨a, as, hrev⟩ : ∃ a as, (c :: cs).reverse = a :: as := by
    cases h : (c :: cs).reverse with
    | nil => exact absurd (List.reverse_eq_nil_iff.mp h) (by simp)
    | cons a as => exact ⟨a, as, rfl⟩
  have hmapH : ((c :: cs).map Candle.high).reverse =
      a.high :: as.map Candle.high := by
    rw [← List.map_reverse, hrev]
    rfl
  have hmapL : ((c :: cs).map Candle.low).reverse =
      a.low :: as.map Candle.low := by
    rw [← List.map_reverse, hrev]
    rfl
  unfold detect_liquidity_grab
  split
  · rename_i lastC tail rh rl h1 h2 h3
    rw [hrev] at h1
    injection h1 with hla hta
    subst hla
    rw [hmapH] at h2
    rw [hmapL] at h3
    have h2' : seriesMax ((a.high :: as.map Candle.high).take 10) =
        some (((as.map Candle.high).take 9).foldl max a.high) := rfl
    have h3' : seriesMin ((a.low :: as.map Candle.low).take 10) =
        some (((as.map Candle.low).take 9).foldl min a.low) := rfl
    rw [h2'] at h2
    rw [h3'] at h3
    injection h2 with h2v
    injection h3 with h3v
    have hrh : a.high ≤ rh := h2v ▸ le_foldl_max _ _
    have hrl : rl ≤ a.low := h3v ▸ foldl_min_le _ _
    rw [if_neg (not_lt.mpr hrh), if_neg (not_lt.mpr hrl)]
  · rfl

/-! ### C6 : SL/TP fallback vs NaN propagation -/

theorem PF.nan_mul (b : PF) : PF.nan * b = PF.nan := rfl

theorem PF.mul_nan (a : PF) : a * PF.nan = PF.nan := by cases a <;> rfl

theorem PF.sub_nan (a : PF) : a - PF.nan = PF.nan := by cases a <;> rfl

theorem PF.pymax_nan (b : PF) : PF.pymax PF.nan b = PF.nan := by
  simp [PF.pymax, PF.lt]

theorem PF.pymin_nan (b : PF) : PF.pymin PF.nan b = PF.nan := by
  cases b <;> simp [PF.pymin, PF.lt]

theorem PF.round_nan (n : ℕ) : PF.round n PF.nan = PF.nan := rfl

/-- C6 counterexample.  On a nonempty window shorter than `atr_period`
the calculator does *not* return the fallback pair
`(entry*0.995, entry*1.01)` — nothing raises, so the `except` branch is
never reached. -/
theorem claim_C6_counterexample :
    calculate_sl_tp c6Cfg c6Data (PF.val 100) Dir.buy ≠
      (PF.val 100 * PF.val 0.995, PF.val 100 * PF.val 1.01) := by
  with_unfolding_all decide

/-- C6 amended.  For a *nonempty* window shorter than `atr_period` (with
positive rolling periods) both outputs are NaN — the rolling ATR is NaN
and NaN propagates through every subsequent operation; the fallback pair
`(entry*0.995, entry*1.01)` is produced only when the computation raises,
i.e. on an empty window. -/
theorem claim_C6_amended (cfg : SLTPConfig) (data : List Candle)
    (entry : PF) (direction : Dir) (hne : data ≠ [])
    (hp : 1 ≤ cfg.atr_period) (hw : 1 ≤ cfg.sr_window)
    (hshort : data.length < cfg.atr_period) :
    calculate_sl_tp cfg data entry direction = (PF.nan, PF.nan) ∧
    ∀ e d, calculate_sl_tp cfg [] e d =
      (e * PF.val 0.995, e * PF.val 1.01) := by
  constructor
  · have hatr : rollingMeanLast cfg.atr_period (trList data) = PF.nan := by
      unfold rollingMeanLast
      rw [if_pos]
      right
      rw [trList_length]
      exact hshort
    have hguard : ¬ (data.isEmpty = true ∨ cfg.atr_period = 0 ∨
        cfg.sr_window = 0) := by
      push_neg
      refine ⟨?_, by omega, by omega⟩
      simp [List.isEmpty_iff, hne]
    unfold calculate_sl_tp
    rw [if_neg hguard]
    cases direction <;>
      simp [hatr, PF.nan_mul, PF.mul_nan, PF.sub_nan, PF.pymax_nan,
        PF.pymin_nan, PF.round_nan]
  · intro e d
    unfold calculate_sl_tp
    rw [if_pos]
    left
    rfl

/-- C6 amended witness: the two-candle window under 14-period config
yields `(NaN, NaN)`, and the empty window yields the fallback. -/
theorem claim_C6_amended_witness :
    calculate_sl_tp c6Cfg c6Data (PF.val 100) Dir.buy = (PF.nan, PF.nan) ∧
    calculate_sl_tp c6Cfg [] (PF.val 100) Dir.buy =
      (PF.val 100 * PF.val 0.995, PF.val 100 * PF.val 1.01) := by
  have h := claim_C6_amended c6Cfg c6Data (PF.val 100) Dir.buy
    (by with_unfolding_all decide) (by decide) (by decide)
    (by with_unfolding_all decide)
  exact ⟨h.1, h.2 (PF.val 100) Dir.buy⟩

/-! ### C9 : fair value gap -/

theorem findSome?_comp_map (g : α → β) (l : List α) (f : β → Option γ) :
    (l.map g).findSome? f = l.findSome? (fun a => f (g a)) := by
  induction l with
  | nil => rfl
  | cons x xs ih => simp [List.findSome?_cons, ih]

/-- C9.  The FVG detector scans triples oldest to newest and returns the
first match of the stated bullish/bearish conditions (the structural scan
equals the source's index loop), and on the spec's synthetic scenario it
returns exactly the bullish signal at price 102.5. -/
theorem claim_C9 :
    (∀ data, detect_fair_value_gap data = detect_fair_value_gap_indexed data) ∧
    detect_fair_value_gap c9Series = some ⟨205/2, .bullish⟩ := by
  constructor
  · intro data
    induction data with
    | nil => rfl
    | cons a tail ih =>
      cases tail with
      | nil => rfl
      | cons b t2 =>
        cases t2 with
        | nil => rfl
        | cons c rest =>
          rw [detect_fair_value_gap]
          unfold detect_fair_value_gap_indexed
          have hlen : (a :: b :: c :: rest).length - 2 = rest.length + 1 := by
            simp
          rw [hlen, List.range_succ_eq_map, List.findSome?_cons,
            findSome?_comp_map]
          have htail : (List.range ((b :: c :: rest).length - 2)).findSome?
              (fun i => fvgTriple ((b :: c :: rest).getD i dfltCandle)
                ((b :: c :: rest).getD (i + 1) dfltCandle)
                ((b :: c :: rest).getD (i + 2) dfltCandle)) =
              (List.range rest.length).findSome?
              (fun i => fvgTriple ((a :: b :: c :: rest).getD (i + 1) dfltCandle)
                ((a :: b :: c :: rest).getD (i + 1 + 1) dfltCandle)
                ((a :: b :: c :: rest).getD (i + 1 + 2) dfltCandle)) := by
            simp [List.getD_cons_succ]
          rw [ih]
          unfold detect_fair_value_gap_indexed
          rw [htail]
          by_cases h1 : a.high < c.low ∧ b.close > b.openP
          · simp [fvgTriple, h1]
          · by_cases h2 : a.low > c.high ∧ b.close < b.openP
            · simp [fvgTriple, h1, h2]
            · simp [fvgTriple, h1, h2]
  · with_unfolding_all decide

/-! ### C1 : balance conservation -/

theorem sumProfits_append_one (tr : List Trade) (t : Trade) :
    sumProfits (tr ++ [t]) = sumProfits tr + t.profit := by
  unfold sumProfits
  rw [List.map_append, List.foldl_append]
  rfl

theorem place_order_pres (cfg : BTConfig) (symbol : String) (d : Dir)
    (sz p sl tp : PF) (s : EngState) :
    (backtester_place_order cfg symbol d sz p sl tp s).account_balance =
      s.account_balance ∧
    (backtester_place_order cfg symbol d sz p sl tp s).trades = s.trades := by
  simp [backtester_place_order]

theorem smcTradeSignal_pres (cfg : Cfg) (symbol : String) (price : ℚ)
    (ty : SigType) (data : List Candle) (s : EngState) :
    (smcTradeSignal cfg symbol price ty data s).account_balance =
      s.account_balance ∧
    (smcTradeSignal cfg symbol price ty data s).trades = s.trades := by
  unfold smcTradeSignal
  dsimp only
  split
  · exact ⟨rfl, rfl⟩
  · exact place_order_pres ..

theorem ictTradeSignal_pres (cfg : Cfg) (symbol : String) (price : ℚ)
    (ty : SigType) (data : List Candle) (s : EngState) :
    (ictTradeSignal cfg symbol price ty data s).account_balance =
      s.account_balance ∧
    (ictTradeSignal cfg symbol price ty data s).trades = s.trades := by
  unfold ictTradeSignal
  exact place_order_pres ..

theorem smc_execute_pres (cfg : Cfg) (symbol : String) (data : List Candle)
    (s : EngState) :
    (smc_execute cfg symbol data s).account_balance = s.account_balance ∧
    (smc_execute cfg symbol data s).trades = s.trades := by
  unfold smc_execute
  split
  · exact ⟨rfl, rfl⟩
  · dsimp only
    cases detect_order_block cfg.smc.ob_volume_multiplier data <;>
      cases detect_fair_value_gap data <;>
        cases detect_liquidity_grab data <;>
          cases detect_break_of_structure data <;>
            cases detect_change_of_character data <;>
              simp [smc_trade_order_block, smc_trade_fair_value_gap,
                smc_trade_liquidity_grab, smc_trade_break_of_structure,
                smc_trade_change_of_character, smcTradeSignal_pres]

theorem ict_execute_pres (cfg : Cfg) (symbol : String) (kz : Bool)
    (data : List Candle) (s : EngState) :
    (ict_execute cfg symbol kz data s).account_balance = s.account_balance ∧
    (ict_execute cfg symbol kz data s).trades = s.trades := by
  unfold ict_execute
  cases kz with
  | false => exact ⟨rfl, rfl⟩
  | true =>
    dsimp only
    split
    · exact ⟨rfl, rfl⟩
    · cases detect_market_structure_break data <;>
        cases detect_judas_swing data <;>
          cases detect_optimal_trade_entry data <;>
            dsimp only <;>
              (try split_ifs) <;>
                (try simp [ict_trade_market_structure, ict_trade_judas_swing,
                  ict_trade_optimal_trade_entry, ictTradeSignal_pres])

theorem processAux_conserve (cfg : BTConfig) (price : PF) (time : ℚ)
    (b0 : ℚ) :
    ∀ (l : List Position) (bal : PF) (tr : List Trade) (keep : List Position),
      bal = PF.val b0 + sumProfits tr →
      (processAux cfg price time l bal tr keep).1 =
        PF.val b0 + sumProfits (processAux cfg price time l bal tr keep).2.1 := by
  intro l
  induction l with
  | nil => intro bal tr keep h; exact h
  | cons pos rest ih =>
    intro bal tr keep h
    unfold processAux
    cases hhit : slTpHit pos price with
    | none => exact ih bal tr (keep ++ [pos]) h
    | some p =>
      apply ih
      rw [sumProfits_append_one, h, PF.addAssoc]

theorem closeAllAux_conserve (cfg : BTConfig) (price : PF) (b0 : ℚ) :
    ∀ (l : List Position) (bal : PF) (tr : List Trade) (clock : List ℚ),
      bal = PF.val b0 + sumProfits tr →
      (closeAllAux cfg price l bal tr clock).1 =
        PF.val b0 + sumProfits (closeAllAux cfg price l bal tr clock).2.1 := by
  intro l
  induction l with
  | nil => intro bal tr clock h; exact h
  | cons pos rest ih =>
    intro bal tr clock h
    unfold closeAllAux
    apply ih
    rw [sumProfits_append_one, h, PF.addAssoc]

theorem process_positions_inv (cfg : BTConfig) (price : PF) (time : ℚ)
    (b0 : ℚ) (s : EngState) (h : InvBal b0 s) :
    InvBal b0 (process_positions cfg price time s) := by
  unfold InvBal process_positions
  exact processAux_conserve cfg price time b0 s.open_positions
    s.account_balance s.trades [] h

theorem close_all_positions_inv (cfg : BTConfig) (price : PF) (b0 : ℚ)
    (s : EngState) (h : InvBal b0 s) :
    InvBal b0 (close_all_positions cfg price s) := by
  unfold InvBal close_all_positions
  exact closeAllAux_conserve cfg price b0 s.open_positions
    s.account_balance s.trades s.clock h

theorem btStep_inv (cfg : Cfg) (symbol : String) (data : List Candle)
    (kz : List Bool) (i : ℕ) (b0 : ℚ) (s : EngState) (h : InvBal b0 s) :
    InvBal b0 (btStep cfg symbol data kz i s) := by
  unfold btStep early_exit_check_positions ordermanager_get_open_positions_backtest
  have h1 := smc_execute_pres cfg symbol (data.take (i + 1)) s
  have h2 := ict_execute_pres cfg symbol (kz.getD i false)
    (data.take (i + 1)) (smc_execute cfg symbol (data.take (i + 1)) s)
  have h3 : InvBal b0 (ict_execute cfg symbol (kz.getD i false)
      (data.take (i + 1)) (smc_execute cfg symbol (data.take (i + 1)) s)) := by
    unfold InvBal at h ⊢
    rw [h2.1, h2.2, h1.1, h1.2]
    exact h
  have h4 := process_positions_inv cfg.bt
    (PF.val (data.getD i dfltCandle).close) (data.getD i dfltCandle).timestamp
    b0 _ h3
  simpa [InvBal] using h4

theorem foldl_btStep_inv (cfg : Cfg) (symbol : String) (data : List Candle)
    (kz : List Bool) (b0 : ℚ) :
    ∀ (is : List ℕ) (s : EngState), InvBal b0 s →
      InvBal b0 (is.foldl (fun s i => btStep cfg symbol data kz i s) s) := by
  intro is
  induction is with
  | nil => intro s h; exact h
  | cons i rest ih =>
    intro s h
    exact ih _ (btStep_inv cfg symbol data kz i b0 s h)

/-- C1.  Balance conservation: for every configuration, candle series,
initial balance and injected slippage/clock/kill-zone streams, the final
account balance of a backtest run equals the initial balance plus the sum
of the recorded `profit` of every appended trade (commission is already
netted into each profit).  Exact rational arithmetic stands in for IEEE
floats, matching the spec's "within floating-point tolerance". -/
theorem claim_C1 (cfg : Cfg) (symbol : String) (data : List Candle)
    (initial_balance : ℚ) (slip clock : List ℚ) (kill_zones : List Bool) :
    (backtester_run cfg symbol data initial_balance slip clock
        kill_zones).account_balance =
      PF.val initial_balance +
        sumProfits (backtester_run cfg symbol data initial_balance slip clock
          kill_zones).trades := by
  unfold backtester_run
  have h0 : InvBal initial_balance
      { account_balance := PF.val initial_balance, open_positions := [],
        trades := [], equity := [PF.val initial_balance],
        slip := slip, clock := clock } := by
    unfold InvBal sumProfits
    simp
  split
  · exact h0
  · exact close_all_positions_inv cfg.bt _ initial_balance _
      (foldl_btStep_inv cfg symbol data kill_zones initial_balance _ _ h0)

/-! ### C4 : profit vs recorded exit price -/

/-- C4 counterexample.  The price gaps to 90, through the stop at 95: the
appended trade records `exit_price = 90` (the current close) but its
profit was computed from the stop level 95, so
`profit ≠ (exit_price − entry_price) × size − commission`. -/
theorem claim_C4_counterexample :
    (process_positions c4Cfg (PF.val 90) 5 c4State).trades =
      [⟨"EURUSD", Dir.buy, PF.val 100, PF.val 90, PF.val 1,
        PF.val (-501/100), 0, 5⟩] ∧
    ¬ (PF.val (-501/100) =
        (PF.val 90 - PF.val 100) * PF.val 1 - PF.val 1 * PF.val (1/100)) := by
  with_unfolding_all decide

/-- C4 amended.  When SL or TP is hit, the appended trade's profit is
`(level − entry) × size` (sign per direction) minus
`commission = size × commission_rate`, where *level* is the stop-loss or
take-profit level that triggered — while the recorded `exit_price` field
is the step's close price, which need not equal that level. -/
theorem claim_C4_amended (cfg : BTConfig) (price : PF) (time : ℚ)
    (pos : Position) (bal : PF) (tr : List Trade) (eq : List PF)
    (sl cl : List ℚ) (p : PF) (hhit : slTpHit pos price = some p) :
    (process_positions cfg price time ⟨bal, [pos], tr, eq, sl, cl⟩).trades =
      tr ++ [{ symbol := pos.symbol, direction := pos.direction,
               entry_price := pos.entry_price, exit_price := price,
               size := pos.size,
               profit := p - pos.size * PF.val cfg.commission,
               open_time := pos.open_time, close_time := time }] ∧
    (pos.direction = Dir.buy →
      p = (pos.stop_loss - pos.entry_price) * pos.size ∨
      p = (pos.take_profit - pos.entry_price) * pos.size) ∧
    (pos.direction = Dir.sell →
      p = (pos.entry_price - pos.stop_loss) * pos.size ∨
      p = (pos.entry_price - pos.take_profit) * pos.size) := by
  refine ⟨?_, ?_, ?_⟩
  · unfold process_positions
    dsimp only
    unfold processAux
    rw [hhit]
    rfl
  · intro hdir
    unfold slTpHit at hhit
    rw [hdir] at hhit
    dsimp only at hhit
    split_ifs at hhit
    · exact Or.inl (Option.some.inj hhit).symm
    · exact Or.inr (Option.some.inj hhit).symm
  · intro hdir
    unfold slTpHit at hhit
    rw [hdir] at hhit
    dsimp only at hhit
    split_ifs at hhit
    · exact Or.inl (Option.some.inj hhit).symm
    · exact Or.inr (Option.some.inj hhit).symm

/-- C4 amended witness: the gap-through-the-stop scenario evaluated via
the amended theorem. -/
theorem claim_C4_amended_witness :
    (process_positions c4Cfg (PF.val 90) 5 c4State).trades =
      [{ symbol := c4Pos.symbol, direction := c4Pos.direction,
         entry_price := c4Pos.entry_price, exit_price := PF.val 90,
         size := c4Pos.size,
         profit := (c4Pos.stop_loss - c4Pos.entry_price) * c4Pos.size -
           c4Pos.size * PF.val c4Cfg.commission,
         open_time := c4Pos.open_time, close_time := 5 }] := by
  have h := claim_C4_amended c4Cfg (PF.val 90) 5 c4Pos (PF.val 10000) []
    [PF.val 10000] [] []
    ((c4Pos.stop_loss - c4Pos.entry_price) * c4Pos.size)
    (by with_unfolding_all decide)
  simpa using h.1

/-! ### C2 : size-zero orders -/

/-- C2 counterexample.  A qualifying ICT signal (bullish market-structure
break agreeing with the daily bias) whose computed size is 0 still places
an order: `ICTStrategy._trade_market_structure` has no size check, so the
backtester records a position of size 0. -/
theorem claim_C2_counterexample :
    detect_market_structure_break c2Data = some ⟨1008/10, .bullish⟩ ∧
    get_daily_bias c2Data = some .bullish ∧
    (ict_execute c2Cfg "EURUSD" true c2Data c2Empty).open_positions.map
      Position.size = [PF.val 0] := by
  with_unfolding_all decide

/-- C2 amended.  The size-0 skip holds for the SMC strategy only: each of
the five SMC trade methods returns without placing an order when the
computed size is 0, but each of the three ICT trade methods places the
order unconditionally — including with size 0. -/
theorem claim_C2_amended (cfg : Cfg) (symbol : String) (data : List Candle)
    (s : EngState) (ob : OBlock) (sig : Sig)
    (hob : calculate_position_size s.account_balance
      (PF.val cfg.max_risk_per_trade) (PF.val ob.price)
      (calculate_sl_tp cfg.sltp data (PF.val ob.price) (dirOfTy ob.ty)).1 =
      PF.val 0)
    (hsig : calculate_position_size s.account_balance
      (PF.val cfg.max_risk_per_trade) (PF.val sig.price)
      (calculate_sl_tp cfg.sltp data (PF.val sig.price) (dirOfTy sig.ty)).1 =
      PF.val 0) :
    smc_trade_order_block cfg symbol ob data s = s ∧
    smc_trade_fair_value_gap cfg symbol sig data s = s ∧
    smc_trade_liquidity_grab cfg symbol sig data s = s ∧
    smc_trade_break_of_structure cfg symbol sig data s = s ∧
    smc_trade_change_of_character cfg symbol sig data s = s ∧
    (ict_trade_market_structure cfg symbol sig data s).open_positions.map
      Position.size = s.open_positions.map Position.size ++ [PF.val 0] ∧
    (ict_trade_judas_swing cfg symbol sig data s).open_positions.map
      Position.size = s.open_positions.map Position.size ++ [PF.val 0] ∧
    (ict_trade_optimal_trade_entry cfg symbol sig data s).open_positions.map
      Position.size = s.open_positions.map Position.size ++ [PF.val 0] := by
  have hsmc : smcTradeSignal cfg symbol sig.price sig.ty data s = s := by
    unfold smcTradeSignal
    dsimp only
    rw [if_pos hsig]
  have hict : ∀ pr ty, calculate_position_size s.account_balance
      (PF.val cfg.max_risk_per_trade) (PF.val pr)
        (calculate_sl_tp cfg.sltp data (PF.val pr) (dirOfTy ty)).1 =
        PF.val 0 →
      (ictTradeSignal cfg symbol pr ty data s).open_positions.map
        Position.size = s.open_positions.map Position.size ++ [PF.val 0] := by
    intro pr ty h
    unfold ictTradeSignal backtester_place_order
    dsimp only
    rw [h]
    simp
  refine ⟨?_, hsmc, hsmc, hsmc, hsmc, hict _ _ hsig, hict _ _ hsig,
    hict _ _ hsig⟩
  unfold smc_trade_order_block smcTradeSignal
  dsimp only
  rw [if_pos hob]

/-- C2 amended witness: in the flat-stop scenario the SMC BOS trade is a
no-op while the ICT market-structure trade appends a size-0 position. -/
theorem claim_C2_amended_witness :
    smc_trade_break_of_structure c2Cfg "EURUSD" ⟨1008/10, .bullish⟩ c2Data
      c2Empty = c2Empty ∧
    (ict_trade_market_structure c2Cfg "EURUSD" ⟨1008/10, .bullish⟩ c2Data
      c2Empty).open_positions.map Position.size = [PF.val 0] := by
  have h := claim_C2_amended c2Cfg "EURUSD" c2Data c2Empty
    ⟨1008/10, .bullish, 101, 100⟩ ⟨1008/10, .bullish⟩
    (by with_unfolding_all decide) (by with_unfolding_all decide)
  exact ⟨h.2.2.2.1, by simpa using h.2.2.2.2.2.1⟩

/-! ### C3 : early exit in backtest mode -/

/-- C3 counterexample.  At step 2 of the concrete run the open BUY
position (`exPos`) meets every early-exit condition — unrealized profit
above the configured minimum and `_should_exit` true on the step window
(RSI above the overbought threshold) — yet the step leaves it open and
appends no trade: in backtest mode the evaluator is invoked against
`OrderManager.get_open_positions`, which returns `[]`, never against the
engine's own position table. -/
theorem claim_C3_counterexample :
    exStep1.open_positions = [exPos] ∧
    PF.le (PF.val exCfg.ee.min_profit_percent)
      (unrealized_profit_percent exPos.direction exPos.entry_price
        (PF.val ((exData.getD 2 dfltCandle).close))) = true ∧
    should_exit exCfg.ee ⟨exData.take 3, []⟩ exPos.direction = true ∧
    exStep2.open_positions = exStep1.open_positions ∧
    exStep2.trades = exStep1.trades := by
  with_unfolding_all decide

/-- C3 amended.  The backtest loop does invoke the early-exit check each
step, but in backtest mode `OrderManager.get_open_positions` returns the
empty list (the engine's open positions live in `Backtester.open_positions`
and are never exposed to it), and `OrderManager.close_position` is a
log-only no-op — so the early-exit phase never changes engine state and
no position is ever closed through it. -/
theorem claim_C3_amended :
    ordermanager_get_open_positions_backtest = ([] : List Position) ∧
    ∀ s : EngState, early_exit_check_positions s = s :=
  ⟨rfl, fun _ => rfl⟩

/-! ### C7 : determinism and the wall clock -/

theorem core_place_order (cfg : BTConfig) (symbol : String) (d : Dir)
    (sz p sl tp : PF) {s1 s2 : EngState} (h : ClockAgnostic s1 s2) :
    ClockAgnostic (backtester_place_order cfg symbol d sz p sl tp s1)
      (backtester_place_order cfg symbol d sz p sl tp s2) := by
  obtain ⟨hb, hp, ht, he, hs⟩ := h
  have hlen : s1.open_positions.length = s2.open_positions.length := by
    simpa using congrArg List.length hp
  unfold ClockAgnostic backtester_place_order
  dsimp only
  refine ⟨hb, ?_, ht, he, by rw [hs]⟩
  rw [List.map_append, List.map_append, hp, hs, hlen]
  simp [Position.core]

theorem core_smcTradeSignal (cfg : Cfg) (symbol : String) (price : ℚ)
    (ty : SigType) (data : List Candle) {s1 s2 : EngState}
    (h : ClockAgnostic s1 s2) :
    ClockAgnostic (smcTradeSignal cfg symbol price ty data s1)
      (smcTradeSignal cfg symbol price ty data s2) := by
  unfold smcTradeSignal
  dsimp only
  rw [h.1]
  split
  · exact h
  · exact core_place_order _ _ _ _ _ _ _ h

theorem core_ictTradeSignal (cfg : Cfg) (symbol : String) (price : ℚ)
    (ty : SigType) (data : List Candle) {s1 s2 : EngState}
    (h : ClockAgnostic s1 s2) :
    ClockAgnostic (ictTradeSignal cfg symbol price ty data s1)
      (ictTradeSignal cfg symbol price ty data s2) := by
  unfold ictTradeSignal
  dsimp only
  rw [h.1]
  exact core_place_order _ _ _ _ _ _ _ h

theorem core_smc_execute (cfg : Cfg) (symbol : String) (data : List Candle)
    {s1 s2 : EngState} (h : ClockAgnostic s1 s2) :
    ClockAgnostic (smc_execute cfg symbol data s1)
      (smc_execute cfg symbol data s2) := by
  unfold smc_execute
  split
  · exact h
  · dsimp only
    simp only [smc_trade_order_block, smc_trade_fair_value_gap,
      smc_trade_liquidity_grab, smc_trade_break_of_structure,
      smc_trade_change_of_character]
    cases detect_order_block cfg.smc.ob_volume_multiplier data <;>
      cases detect_fair_value_gap data <;>
        cases detect_liquidity_grab data <;>
          cases detect_break_of_structure data <;>
            cases detect_change_of_character data <;>
              (repeat' first
                | exact h
                | apply core_smcTradeSignal)

theorem core_ict_execute (cfg : Cfg) (symbol : String) (kz : Bool)
    (data : List Candle) {s1 s2 : EngState} (h : ClockAgnostic s1 s2) :
    ClockAgnostic (ict_execute cfg symbol kz data s1)
      (ict_execute cfg symbol kz data s2) := by
  unfold ict_execute
  cases kz with
  | false => exact h
  | true =>
    dsimp only
    split
    · exact h
    · simp only [ict_trade_market_structure, ict_trade_judas_swing,
        ict_trade_optimal_trade_entry]
      cases detect_market_structure_break data <;>
        cases detect_judas_swing data <;>
          cases detect_optimal_trade_entry data <;>
            dsimp only <;>
              (try split_ifs) <;>
                (repeat' first
                  | exact h
                  | apply core_ictTradeSignal)

theorem core_processAux (cfg : BTConfig) (price : PF) (time : ℚ) :
    ∀ (l1 l2 : List Position) (bal : PF) (tr1 tr2 : List Trade)
      (keep1 keep2 : List Position),
      l1.map Position.core = l2.map Position.core →
      tr1.map Trade.core = tr2.map Trade.core →
      keep1.map Position.core = keep2.map Position.core →
      (processAux cfg price time l1 bal tr1 keep1).1 =
        (processAux cfg price time l2 bal tr2 keep2).1 ∧
      (processAux cfg price time l1 bal tr1 keep1).2.1.map Trade.core =
        (processAux cfg price time l2 bal tr2 keep2).2.1.map Trade.core ∧
      (processAux cfg price time l1 bal tr1 keep1).2.2.map Position.core =
        (processAux cfg price time l2 bal tr2 keep2).2.2.map Position.core := by
  intro l1
  induction l1 with
  | nil =>
    intro l2 bal tr1 tr2 keep1 keep2 hl htr hkeep
    cases l2 with
    | nil => exact ⟨rfl, htr, hkeep⟩
    | cons p2 rest2 => simp at hl
  | cons p1 rest1 ih =>
    intro l2 bal tr1 tr2 keep1 keep2 hl htr hkeep
    cases l2 with
    | nil => simp at hl
    | cons p2 rest2 =>
      simp only [List.map_cons] at hl
      injection hl with hcore hrest
      obtain ⟨sym1, dir1, sz1, e1, sl1, tp1, ot1, id1⟩ := p1
      obtain ⟨sym2, dir2, sz2, e2, sl2, tp2, ot2, id2⟩ := p2
      simp only [Position.core, PosData.mk.injEq] at hcore
      obtain ⟨rfl, rfl, rfl, rfl, rfl, rfl, rfl⟩ := hcore
      unfold processAux
      have hsw : slTpHit ⟨sym1, dir1, sz1, e1, sl1, tp1, ot1, id1⟩ price =
          slTpHit ⟨sym1, dir1, sz1, e1, sl1, tp1, ot2, id1⟩ price := rfl
      rw [hsw]
      cases slTpHit ⟨sym1, dir1, sz1, e1, sl1, tp1, ot2, id1⟩ price with
      | none =>
        apply ih rest2 bal tr1 tr2 _ _ hrest htr
        simp [List.map_append, Position.core, hkeep]
      | some p =>
        apply ih rest2 _ _ _ keep1 keep2 hrest _ hkeep
        simp [List.map_append, Trade.core, htr]

theorem core_process_positions (cfg : BTConfig) (price : PF) (time : ℚ)
    {s1 s2 : EngState} (h : ClockAgnostic s1 s2) :
    ClockAgnostic (process_positions cfg price time s1)
      (process_positions cfg price time s2) := by
  obtain ⟨hb, hp, ht, he, hs⟩ := h
  unfold process_positions
  dsimp only
  rw [hb]
  have hx := core_processAux cfg price time s1.open_positions
    s2.open_positions s2.account_balance s1.trades s2.trades [] [] hp ht rfl
  exact ⟨hx.1, hx.2.2, hx.2.1, he, hs⟩

theorem core_closeAllAux (cfg : BTConfig) (price : PF) :
    ∀ (l1 l2 : List Position) (bal : PF) (tr1 tr2 : List Trade)
      (ck1 ck2 : List ℚ),
      l1.map Position.core = l2.map Position.core →
      tr1.map Trade.core = tr2.map Trade.core →
      (closeAllAux cfg price l1 bal tr1 ck1).1 =
        (closeAllAux cfg price l2 bal tr2 ck2).1 ∧
      (closeAllAux cfg price l1 bal tr1 ck1).2.1.map Trade.core =
        (closeAllAux cfg price l2 bal tr2 ck2).2.1.map Trade.core := by
  intro l1
  induction l1 with
  | nil =>
    intro l2 bal tr1 tr2 ck1 ck2 hl htr
    cases l2 with
    | nil => exact ⟨rfl, htr⟩
    | cons p2 rest2 => simp at hl
  | cons p1 rest1 ih =>
    intro l2 bal tr1 tr2 ck1 ck2 hl htr
    cases l2 with
    | nil => simp at hl
    | cons p2 rest2 =>
      simp only [List.map_cons] at hl
      injection hl with hcore hrest
      obtain ⟨sym1, dir1, sz1, e1, sl1, tp1, ot1, id1⟩ := p1
      obtain ⟨sym2, dir2, sz2, e2, sl2, tp2, ot2, id2⟩ := p2
      simp only [Position.core, PosData.mk.injEq] at hcore
      obtain ⟨rfl, rfl, rfl, rfl, rfl, rfl, rfl⟩ := hcore
      unfold closeAllAux
      apply ih rest2 _ _ _ ck1.tail ck2.tail hrest
      simp [List.map_append, Trade.core, htr]

theorem core_close_all_positions (cfg : BTConfig) (price : PF)
    {s1 s2 : EngState} (h : ClockAgnostic s1 s2) :
    ClockAgnostic (close_all_positions cfg price s1)
      (close_all_positions cfg price s2) := by
  obtain ⟨hb, hp, ht, he, hs⟩ := h
  unfold close_all_positions
  dsimp only
  rw [hb]
  have hx := core_closeAllAux cfg price s1.open_positions s2.open_positions
    s2.account_balance s1.trades s2.trades s1.clock s2.clock hp ht
  exact ⟨hx.1, rfl, hx.2, he, hs⟩

theorem early_exit_check_id (s : EngState) :
    early_exit_check_positions s = s := rfl

theorem core_btStep (cfg : Cfg) (symbol : String) (data : List Candle)
    (kz : List Bool) (i : ℕ) {s1 s2 : EngState} (h : ClockAgnostic s1 s2) :
    ClockAgnostic (btStep cfg symbol data kz i s1)
      (btStep cfg symbol data kz i s2) := by
  unfold btStep
  simp only [early_exit_check_id]
  have h1 := core_smc_execute cfg symbol (data.take (i + 1)) h
  have h2 := core_ict_execute cfg symbol (kz.getD i false)
    (data.take (i + 1)) h1
  have h3 := core_process_positions cfg.bt
    (PF.val (data.getD i dfltCandle).close)
    (data.getD i dfltCandle).timestamp h2
  obtain ⟨hb, hp, ht, he, hs⟩ := h3
  refine ⟨hb, hp, ht, ?_, hs⟩
  dsimp only
  rw [he, hb]

theorem core_foldl_btStep (cfg : Cfg) (symbol : String) (data : List Candle)
    (kz : List Bool) :
    ∀ (is : List ℕ) {s1 s2 : EngState}, ClockAgnostic s1 s2 →
      ClockAgnostic (is.foldl (fun s i => btStep cfg symbol data kz i s) s1)
        (is.foldl (fun s i => btStep cfg symbol data kz i s) s2) := by
  intro is
  induction is with
  | nil => intro s1 s2 h; exact h
  | cons i rest ih =>
    intro s1 s2 h
    exact ih (core_btStep cfg symbol data kz i h)

/-- C7 amended.  The equity curve, the final balance, and every
non-time field of every trade are independent of the wall clock: two runs
over the same candle series, configuration, slippage stream and kill-zone
schedule, differing only in their `datetime.now()` readings, produce
identical equity curves and trade lists up to the `open_time`/`close_time`
fields (which are stamped from the wall clock and therefore differ between
any two real executions). -/
theorem claim_C7_amended (cfg : Cfg) (symbol : String) (data : List Candle)
    (initial_balance : ℚ) (slip : List ℚ) (kill_zones : List Bool)
    (clock1 clock2 : List ℚ) :
    (backtester_run cfg symbol data initial_balance slip clock1
        kill_zones).equity =
      (backtester_run cfg symbol data initial_balance slip clock2
        kill_zones).equity ∧
    (backtester_run cfg symbol data initial_balance slip clock1
        kill_zones).trades.map Trade.core =
      (backtester_run cfg symbol data initial_balance slip clock2
        kill_zones).trades.map Trade.core ∧
    (backtester_run cfg symbol data initial_balance slip clock1
        kill_zones).account_balance =
      (backtester_run cfg symbol data initial_balance slip clock2
        kill_zones).account_balance := by
  have h0 : ClockAgnostic
      { account_balance := PF.val initial_balance, open_positions := [],
        trades := [], equity := [PF.val initial_balance],
        slip := slip, clock := clock1 }
      { account_balance := PF.val initial_balance, open_positions := [],
        trades := [], equity := [PF.val initial_balance],
        slip := slip, clock := clock2 } :=
    ⟨rfl, rfl, rfl, rfl, rfl⟩
  unfold backtester_run
  split
  · exact ⟨rfl, rfl, rfl⟩
  · have h := core_close_all_positions cfg.bt
      (PF.val (data.getLastD dfltCandle).close)
      (core_foldl_btStep cfg symbol data kill_zones
        (List.range' 1 (data.length - 1)) h0)
    exact ⟨h.2.2.2.1, h.2.2.1, h.1⟩

/-- C7 counterexample.  Two runs over the same series, configuration and
slippage stream executed at different wall-clock times produce *different*
trade lists: the trades' `open_time` is stamped from `datetime.now()`. -/
theorem claim_C7_counterexample : exRun.trades ≠ exRunClock1.trades := by
  with_unfolding_all decide

/-! ### C10 : frame effects of the detectors -/

/-- C10 counterexample.  `EarlyExit._detect_break_of_structure` takes no
copy: invoking it on a fresh frame hands back a frame that gained the
`higher_high`/`lower_low` columns — the input window is not equal before
and after the call. -/
theorem claim_C10_counterexample :
    (earlyExit_detect_break_of_structure ⟨c2Data, []⟩).2 ≠ ⟨c2Data, []⟩ := by
  with_unfolding_all decide

/-- C10 amended.  The strategy detectors and the ATR helper operate on
private copies and leave the caller's frame exactly as it was; the two
`EarlyExit` detectors instead assign their derived columns
(`higher_high`/`lower_low`, resp. `trend`) into the caller's frame — the
OHLCV rows are unchanged, but the frame itself is mutated. -/
theorem claim_C10_amended (k : ℚ) (p : ℕ) (df : DFrame) :
    (smc_detect_order_block_frame k df).2 = df ∧
    (smc_detect_break_of_structure_frame df).2 = df ∧
    (smc_detect_change_of_character_frame df).2 = df ∧
    (ict_detect_market_structure_break_frame df).2 = df ∧
    (calculate_atr_frame p df).2 = df ∧
    (earlyExit_detect_break_of_structure df).2.rows = df.rows ∧
    (earlyExit_detect_change_of_character df).2.rows = df.rows ∧
    (earlyExit_detect_break_of_structure df).2 =
      setCol (setCol df "higher_high" (.bools (higherHighCol df.rows)))
        "lower_low" (.bools (lowerLowCol df.rows)) ∧
    (earlyExit_detect_change_of_character df).2 =
      setCol df "trend" (.floats (trendCol (df.rows.map Candle.close))) :=
  ⟨rfl, rfl, rfl, rfl, rfl, rfl, rfl, rfl, rfl⟩

end GrT
